import Mathlib

set_option maxRecDepth 100000

/-!
Shallow embedding of the religious-content channel filter
(`src/improved_religious_filter.py`, plus the domain-extraction helpers of
`src/filter_bitel_channels.py` and the column handling of
`src/filter_pluto_channels.py`).

Modelling conventions:
* Python `str` values are Lean `String`s; text processing works on `List Char`
  (one entry per code point, as Python indexes strings by code point).
* Python float confidences are modelled as exact rationals; every weight in
  the source (0.8, 0.6, 0.3, 0.9, 0.7, 1.2, 0.5, 0.6) is an exact decimal and
  no comparison in the verified properties is within float rounding distance.
* Python `set` literals are modelled as the literal element list with
  duplicates removed (`pySet`); iteration order over a Python set is
  unspecified, so only order-independent facts (membership, counts, sums)
  are proved about data that flows through a set.
* `re` patterns are modelled by a small matcher covering exactly the shapes
  used in `_compile_patterns`: a word boundary, an alternation of literal
  words, then either a trailing word boundary, or required whitespace
  followed by either a second alternation of literal prefixes or `\w+`.
  `re.IGNORECASE` is modelled by matching the (lower-case) literals against
  the lower-cased text, which is equivalent because all pattern literals are
  ASCII letters and the character classes `\w`, `\s`, `\b` are
  case-insensitive.
-/

/-- ASCII lower-casing plus the Latin-1 uppercase range, mirroring what
Python `str.lower` does on every character that occurs in the source data
(`A`-`Z` and `À`-`Þ` except `×` map 32 code points up; everything else that
appears in the lexicon is already lower-case). -/
def pyLowerChar (c : Char) : Char :=
  let n := c.toNat
  if 65 ≤ n ∧ n ≤ 90 then Char.ofNat (n + 32)
  else if 192 ≤ n ∧ n ≤ 222 ∧ n ≠ 215 then Char.ofNat (n + 32)
  else c

/-- Lower-case a string into its code-point list (Python `text.lower()`). -/
def pyLower (s : String) : List Char := s.toList.map pyLowerChar

/-- Python `\w` (word character): alphanumeric, underscore, and non-ASCII
code points (Python treats the accented letters of the source data as word
characters). -/
def isWordChar (c : Char) : Bool :=
  c.isAlphanum || c = '_' || decide (127 < c.toNat)

/-- Python `\s` on ASCII: space, tab, newline, carriage return, vertical
tab, form feed. -/
def isSpaceChar (c : Char) : Bool :=
  c = ' ' || c = '\t' || c = '\n' || c = '\x0d' || c = '\x0b' || c = '\x0c'

/-- Python substring test `needle in hay` on code-point lists. -/
def isSubstr (needle : List Char) : List Char → Bool
  | [] => needle.isEmpty
  | c :: rest => needle.isPrefixOf (c :: rest) || isSubstr needle rest

/-- Python set construction from a literal list: duplicates removed, keeping
the first occurrence of each element. -/
def pySet (l : List String) : List String := go [] l
where
  go (seen : List String) : List String → List String
    | [] => []
    | x :: xs => if x ∈ seen then go seen xs else x :: go (x :: seen) xs

/-- The literal of `_get_high_precision_keywords`, in source order (the
Python set collapses the duplicated entries such as `pastor`, `sermon`,
`pentecostal`, `mormon`, `altar`, `amen`, `hosanna`, `temple`). -/
def highPrecisionLiteral : List String := [
  -- Español - Términos religiosos específicos
  "iglesia", "pastor", "predicador", "sermon", "biblia", "evangelio",
  "cristiano", "catolico", "protestante", "pentecostal", "bautista",
  "metodista", "adventista", "testigo", "jehova", "mormon", "mision",
  "ministerio", "apostol", "profeta", "sacerdote", "obispo", "papa",
  "vaticano", "templo", "catedral", "capilla", "santuario", "altar",
  "cruz", "crucifijo", "rosario", "oracion", "rezo", "bendicion",
  "milagro", "santo", "santa", "virgen", "maria", "jesus", "cristo",
  "dios", "señor", "espiritu", "trinidad", "salvacion", "pecado",
  "perdon", "gracia", "gloria", "aleluya", "amen", "hosanna",
  "diocesano", "parroquia", "feligres", "misa", "eucaristia",
  "comunion", "confesion", "bautismo", "confirmacion", "matrimonio",
  "ordenacion", "novena", "via crucis", "resurreccion", "ascension",
  "pentecostes", "navidad", "pascua", "cuaresma", "adviento",
  -- English - Religious terms
  "church", "pastor", "preacher", "sermon", "bible", "gospel",
  "christian", "catholic", "protestant", "pentecostal", "baptist",
  "methodist", "adventist", "witness", "jehovah", "mormon", "mission",
  "ministry", "apostle", "prophet", "priest", "bishop", "pope",
  "vatican", "temple", "cathedral", "chapel", "sanctuary", "altar",
  "cross", "crucifix", "rosary", "prayer", "blessing", "miracle",
  "saint", "virgin", "mary", "jesus", "christ", "god", "lord",
  "spirit", "trinity", "salvation", "sin", "forgiveness", "grace",
  "glory", "hallelujah", "amen", "hosanna", "diocese", "parish",
  "mass", "eucharist", "communion", "confession", "baptism",
  "confirmation", "ordination", "resurrection", "ascension",
  "christmas", "easter", "lent", "advent",
  -- Términos específicos de canales religiosos conocidos
  "3abn", "ewtn", "tbn", "enlace", "hope channel", "novo tempo",
  "nuevo tiempo", "tv universal", "tv cancao nova", "terceiro anjo",
  "sat 7", "canal luz", "canal diocesano", "canal santa maria",
  "bethel", "caritas", "iurd", "padre cicero", "santa cecilia",
  -- Términos islámicos
  "islam", "muslim", "quran", "allah", "muhammad", "mosque",
  "imam", "hajj", "ramadan", "eid", "salah", "zakat", "shahada",
  "mecca", "medina", "islamic", "islámico", "mezquita", "corán",
  -- Términos judíos
  "jewish", "judaism", "torah", "synagogue", "rabbi", "kosher",
  "shabbat", "passover", "yom kippur", "hanukkah", "judío", "judaísmo",
  "sinagoga", "rabino", "shabat",
  -- Términos hindúes y budistas
  "hindu", "hinduism", "buddha", "buddhism", "meditation", "karma",
  "dharma", "yoga", "mantra", "temple", "monastery", "monk",
  "hindú", "hinduismo", "buda", "budismo", "meditación", "monasterio",
  "monje"]

/-- `_get_high_precision_keywords` as the set it returns. -/
def highPrecisionKeywords : List String := pySet highPrecisionLiteral

/-- The literal of `_get_context_dependent_keywords`. -/
def contextDependentLiteral : List String := [
  "fe", "esperanza", "amor", "paz", "vida", "luz", "camino",
  "faith", "hope", "love", "peace", "life", "light", "way",
  "angel", "anjo", "cielo", "heaven", "eternal", "eterno",
  "divine", "divino", "sacred", "sagrado", "holy", "santo"]

/-- `_get_context_dependent_keywords` as the set it returns. -/
def contextDependentKeywords : List String := pySet contextDependentLiteral

/-- The literal of `_get_religious_domains`. -/
def religiousDomainsLiteral : List String := [
  "iglesia", "church", "gospel", "christian", "catolico", "catholic",
  "evangelico", "evangelical", "pentecostal", "bautista", "baptist",
  "metodista", "methodist", "adventista", "adventist", "mormon",
  "testigo", "jehova", "jehovah", "ministerio", "ministry",
  "mision", "mission", "templo", "temple", "biblia", "bible",
  "cristo", "christ", "jesus", "dios", "god", "santo", "saint",
  "diocesis", "diocese", "parroquia", "parish", "vaticano", "vatican",
  "ewtn", "tbn", "3abn", "enlace", "hopechannel", "novotempo",
  "nuevotiempo", "tvuniversal", "cancaonova", "terceiroanjo",
  "sat7", "canalluz", "canaldiocesano", "canalsantamaria",
  "bethel", "caritas", "iurd", "padrecicero", "santacecilia",
  "islamic", "islamico", "muslim", "mezquita", "mosque",
  "jewish", "judaism", "synagogue", "sinagoga", "torah",
  "hindu", "hinduism", "buddha", "buddhism", "monastery"]

/-- `_get_religious_domains` as the set it returns. -/
def religiousDomains : List String := pySet religiousDomainsLiteral

/-- Tail of a compiled pattern after its leading word-boundary-anchored
alternation of literal words. -/
inductive PatTail where
  /-- A trailing `\b` (the false-positive guard patterns `\btelefe\b` and
  `\bcafe\b`). -/
  | bound : PatTail
  /-- `\s+` followed by an alternation of literal word stems, matched as
  prefixes of the remaining text (the source alternations carry no trailing
  boundary). -/
  | alts : List String → PatTail
  /-- `\s+` followed by `\w+`. -/
  | anyWord : PatTail
deriving DecidableEq

/-- One compiled pattern of `_compile_patterns`: `\b`, an alternation of
literal words, then `tail`. `santa?` is expanded to the two literals
`santa` and `sant`; regex alternation with backtracking makes a match
reachable exactly when some alternative extends to a full match, which is
how the matcher below treats the alternative lists. -/
structure Pat where
  heads : List String
  tail : PatTail
deriving DecidableEq

/-- `_compile_patterns`, in source order. -/
def religiousPatterns : List Pat := [
  -- Patrones para canales religiosos específicos
  ⟨["canal", "tv", "television"], .alts ["religios", "cristian", "catolico", "evangelico"]⟩,
  ⟨["radio", "tv"], .alts ["iglesia", "church", "gospel"]⟩,
  ⟨["padre", "pastor", "bishop", "obispo"], .anyWord⟩,
  ⟨["santa", "sant", "saint"], .anyWord⟩,
  ⟨["virgen", "virgin"], .alts ["maria", "mary"]⟩,
  ⟨["jesus", "christ", "cristo"], .alts ["tv", "radio", "canal"]⟩,
  ⟨["dios", "god"], .alts ["tv", "radio", "canal"]⟩,
  -- Patrones para organizaciones religiosas
  ⟨["ministerio", "ministry"], .anyWord⟩,
  ⟨["mision", "mission"], .anyWord⟩,
  ⟨["iglesia", "church"], .anyWord⟩,
  -- Patrones para contenido islámico
  ⟨["al", "el"], .alts ["islam", "quran", "coran"]⟩,
  ⟨["mosque"], .anyWord⟩,
  -- Patrones para evitar falsos positivos
  ⟨["telefe"], .bound⟩,  -- No es religioso
  ⟨["cafe"], .bound⟩]    -- No es religioso

/-- Match the tail of a pattern against the text remaining after the head
literal. Since every tail literal begins with a letter, the greedy `\s+`
of the source regex is equivalent to skipping the maximal whitespace run
(at least one character) and then matching the literal as a prefix. -/
def tailMatches : PatTail → List Char → Bool
  | .bound, [] => true
  | .bound, c :: _ => !isWordChar c
  | .alts _, [] => false
  | .alts ws, c :: rest =>
      isSpaceChar c &&
        ws.any fun w => w.toList.isPrefixOf ((c :: rest).dropWhile isSpaceChar)
  | .anyWord, [] => false
  | .anyWord, c :: rest =>
      isSpaceChar c &&
        match (c :: rest).dropWhile isSpaceChar with
        | [] => false
        | d :: _ => isWordChar d

/-- The leading `\b` of every pattern: start of text, or the previous
character is not a word character (each head literal begins with a word
character, so the boundary condition reduces to this). -/
def boundaryOk (prev : Option Char) : Bool :=
  match prev with
  | none => true
  | some q => !isWordChar q

/-- Does some head alternative match at the current position, with the
pattern tail matching right after it? -/
def headHereMatches (p : Pat) (cs : List Char) : Bool :=
  p.heads.any fun w =>
    w.toList.isPrefixOf cs && tailMatches p.tail (cs.drop w.toList.length)

/-- Scan for a pattern match at any position; `prev` is the character just
before the current position (for the `\b` check). -/
def patMatchAux (p : Pat) (prev : Option Char) : List Char → Bool
  | [] => false
  | c :: rest =>
      (boundaryOk prev && headHereMatches p (c :: rest)) || patMatchAux p (some c) rest

/-- `pattern.findall(text)` is non-empty, over the lower-cased code-point
list of the text (modelling `re.IGNORECASE`). -/
def patMatches (p : Pat) (cs : List Char) : Bool := patMatchAux p none cs

/-- The analyzer output triple of `_analyze_text`
(`is_religious, confidence, reasons`); the `matched_terms` component of the
source is the corresponding concatenation of matching keywords and pattern
group renderings and is not needed by any verified property. -/
structure TextResult where
  isReligious : Bool
  confidence : ℚ
  reasons : List String
deriving DecidableEq

/-- `_analyze_text`. The per-iteration `confidence += w` accumulations of
the source are written as `w * count`; iteration is over the keyword sets,
so each distinct keyword contributes once, and the context loop only
collects matches when a high-precision or pattern match already fired
(the guard inside the source loop is iteration-independent). -/
def analyzeText (text : String) : TextResult :=
  if text = "" then ⟨false, 0, []⟩
  else
    let tl := pyLower text
    let hp := highPrecisionKeywords.filter fun k => isSubstr k.toList tl
    let pats := religiousPatterns.filter fun p => patMatches p tl
    let ctx :=
      if hp.isEmpty && pats.isEmpty then []
      else contextDependentKeywords.filter fun k => isSubstr k.toList tl
    let confidence :=
      min ((hp.length : ℚ) * 0.8 + (pats.length : ℚ) * 0.6 + (ctx.length : ℚ) * 0.3) 1
    ⟨decide ((0.5 : ℚ) ≤ confidence), confidence,
      (if hp.isEmpty then [] else ["high_precision_keywords"]) ++
      (if pats.isEmpty then [] else ["pattern_match"]) ++
      (if ctx.isEmpty then [] else ["context_keywords"])⟩

/-- Scheme completion of `_extract_domain` / `extract_domain`: prepend
`http://` unless the string already starts with `http://` or `https://`. -/
def withScheme (url : List Char) : List Char :=
  if "http://".toList.isPrefixOf url || "https://".toList.isPrefixOf url then url
  else "http://".toList ++ url

/-- The `netloc` component `urllib.parse.urlparse` computes for a URL that
starts with `http://` or `https://`: the characters after `//` up to the
first `/`, `?` or `#`. -/
def netlocOf (u : List Char) : List Char :=
  let rest := if "http://".toList.isPrefixOf u then u.drop 7 else u.drop 8
  rest.takeWhile fun c => c ≠ '/' && c ≠ '?' && c ≠ '#'

/-- The condition under which `urllib.parse.urlparse` raises
`ValueError("Invalid IPv6 URL")`: a `[` without `]` in the netloc, or
conversely (the NFKC netloc check, which needs exotic non-ASCII input,
is not modelled). -/
def bracketMismatch (netloc : List Char) : Bool :=
  (netloc.contains '[' && !netloc.contains ']') ||
  (netloc.contains ']' && !netloc.contains '[')

/-- Does the host parse of the scheme-completed URL fail
(`urlparse` raises inside the `try` block)? -/
def parseFails (url : String) : Bool :=
  bracketMismatch (netlocOf (withScheme url.toList))

/-- Python `domain.split(':')[0]` preceded by the `':' in domain` test:
in both branches this is the longest prefix without `:`. -/
def stripPort (domain : List Char) : List Char :=
  domain.takeWhile fun c => c ≠ ':'

/-- `ImprovedReligiousFilter._extract_domain`. On a parse failure the
source returns `url.lower()` where `url` has already been rebound to the
scheme-completed string inside the `try` block. The result is the host as
a code-point list (`[]` is the empty string). -/
def extractDomain (url : String) : List Char :=
  if url = "" then []
  else
    let u := withScheme url.toList
    let netloc := netlocOf u
    if bracketMismatch netloc then u.map pyLowerChar
    else stripPort (netloc.map pyLowerChar)

/-- `extract_domain` of `src/filter_bitel_channels.py`: identical except
that a parse failure yields the empty string. -/
def bitelExtractDomain (url : String) : List Char :=
  if url = "" then []
  else
    let u := withScheme url.toList
    let netloc := netlocOf u
    if bracketMismatch netloc then []
    else stripPort (netloc.map pyLowerChar)

/-- Python `domain.split('.')`: split on every dot, keeping empty pieces. -/
def splitOnDot : List Char → List (List Char)
  | [] => [[]]
  | c :: rest =>
      let r := splitOnDot rest
      if c = '.' then [] :: r
      else
        match r with
        | [] => [[c]]
        | h :: t => (c :: h) :: t

/-- The analyzer output of `_analyze_domain`
(`is_religious, confidence, reasons, matched_terms`). -/
structure DomainResult where
  isReligious : Bool
  confidence : ℚ
  reasons : List String
  matchedTerms : List String
deriving DecidableEq

/-- `_analyze_domain`. The first loop appends the tag `religious_domain`
once per matching domain term; the second loop appends
`religious_subdomain` guarded by a membership test, hence at most once. -/
def analyzeDomain (url : String) : DomainResult :=
  let domain := extractDomain url
  if domain.isEmpty then ⟨false, 0, [], []⟩
  else
    let full := religiousDomains.filter fun t => isSubstr t.toList domain
    let parts := splitOnDot domain
    let subs := parts.filter fun part => religiousDomains.any fun t => t.toList == part
    let confidence := min ((full.length : ℚ) * 0.9 + (subs.length : ℚ) * 0.7) 1
    ⟨decide ((0.6 : ℚ) ≤ confidence), confidence,
      full.map (fun _ => "religious_domain") ++
        (if subs.isEmpty then [] else ["religious_subdomain"]),
      full ++ subs.map fun p => String.mk p⟩

/-- The channel fields `analyze_channel` reads from its input dict
(missing keys degrade to the empty string in the source). -/
structure ChannelData where
  name : String
  url : String
  category : String
  group : String
  description : String
deriving DecidableEq

/-- Python whitespace strip of both ends (`str.strip()`). -/
def pyStrip (s : String) : String :=
  String.mk (((s.toList.dropWhile isSpaceChar).reverse.dropWhile isSpaceChar).reverse)

/-- `f"{name} {category} {group} {description}".strip()` of
`analyze_channel`. -/
def combinedText (c : ChannelData) : String :=
  pyStrip (c.name ++ " " ++ c.category ++ " " ++ c.group ++ " " ++ c.description)

/-- `FilterResult` of the source, without the `channel_info` echo of the
input record. `reasons` and `matched_terms` pass through `list(set(...))`
in the source, whose order is unspecified; deduplication keeping first
occurrences models the set contents. -/
structure FilterResult where
  isReligious : Bool
  confidence : ℚ
  reasons : List String
deriving DecidableEq

/-- `analyze_channel`: run both analyzers, OR the flags, take the maximum
confidence, and boost by 1.2 (clamped to 1) when both detected. -/
def analyzeChannel (c : ChannelData) : FilterResult :=
  let t := analyzeText (combinedText c)
  let d := analyzeDomain c.url
  let conf0 := max t.confidence d.confidence
  let confidence := if t.isReligious && d.isReligious then min (conf0 * 1.2) 1 else conf0
  ⟨t.isReligious || d.isReligious, confidence, pySet (t.reasons ++ d.reasons)⟩

/-- The column mapping `filter_csv` applies to a row with at least two
fields: `url` is the first column, `name` the second, then `category`,
`group`, `description`. -/
def rowChannelData (row : List String) : ChannelData :=
  ⟨row.getD 1 "", row.getD 0 "", row.getD 2 "", row.getD 3 "", row.getD 4 ""⟩

/-- The in-memory outcome of one `filter_csv` run: the kept rows
(`remaining_channels`), the flagged rows with their verdicts
(`filtered_channels`), and the `total_channels` counter. -/
structure FilterRun where
  remaining : List (List String)
  filtered : List (List String × FilterResult)
  total : Nat
deriving DecidableEq

/-- The row-processing loop of `filter_csv` (the CSV file I/O around it is
not modelled): rows with at least two fields are classified and flagged
when `is_religious` holds and the confidence reaches the threshold;
shorter rows are kept unclassified; order is preserved in both outputs. -/
def filterCsv (rows : List (List String)) (threshold : ℚ) : FilterRun :=
  match rows with
  | [] => ⟨[], [], 0⟩
  | row :: rest =>
      let tail := filterCsv rest threshold
      if 2 ≤ row.length then
        let res := analyzeChannel (rowChannelData row)
        if res.isReligious && decide (threshold ≤ res.confidence) then
          ⟨tail.remaining, (row, res) :: tail.filtered, tail.total + 1⟩
        else ⟨row :: tail.remaining, tail.filtered, tail.total + 1⟩
      else ⟨row :: tail.remaining, tail.filtered, tail.total + 1⟩

/-- The removal condition of `filter_csv` for one row, at a given
threshold. -/
def shouldRemove (row : List String) (threshold : ℚ) : Bool :=
  decide (2 ≤ row.length) &&
    ((analyzeChannel (rowChannelData row)).isReligious &&
      decide (threshold ≤ (analyzeChannel (rowChannelData row)).confidence))

/-- The column mapping of `filter_pluto_channels` for a row with at least
three fields: id, name, url — the url is the third column there. -/
def plutoChannelUrl (row : List String) : String := row.getD 2 ""

theorem analyzeText_confidence_nonneg (text : String) :
    0 ≤ (analyzeText text).confidence := by
  unfold analyzeText
  split
  · norm_num
  · dsimp only
    refine le_min ?_ (by norm_num)
    positivity

theorem analyzeText_confidence_le_one (text : String) :
    (analyzeText text).confidence ≤ 1 := by
  unfold analyzeText
  split
  · norm_num
  · dsimp only
    exact min_le_right _ _

theorem analyzeDomain_confidence_nonneg (url : String) :
    0 ≤ (analyzeDomain url).confidence := by
  unfold analyzeDomain
  dsimp only
  split
  · norm_num
  · refine le_min ?_ (by norm_num)
    positivity

theorem analyzeDomain_confidence_le_one (url : String) :
    (analyzeDomain url).confidence ≤ 1 := by
  unfold analyzeDomain
  dsimp only
  split
  · norm_num
  · exact min_le_right _ _

/-- C2: Context terms never self-trigger — when no high-precision keyword is
a substring of the lower-cased text and no compiled pattern matches, the
text analyzer returns confidence exactly 0 and detected = false, no matter
how many context-dependent terms the text contains. -/
theorem text_context_terms_never_self_trigger (text : String)
    (hhp : ∀ k ∈ highPrecisionKeywords, isSubstr k.toList (pyLower text) = false)
    (hpat : ∀ p ∈ religiousPatterns, patMatches p (pyLower text) = false) :
    (analyzeText text).confidence = 0 ∧ (analyzeText text).isReligious = false := by
  unfold analyzeText
  split
  · exact ⟨rfl, rfl⟩
  · dsimp only
    have h1 : (highPrecisionKeywords.filter fun k => isSubstr k.toList (pyLower text)) = [] := by
      refine List.filter_eq_nil_iff.mpr ?_
      intro k hk
      simp only [Bool.not_eq_true]
      exact hhp k hk
    have h2 : (religiousPatterns.filter fun p => patMatches p (pyLower text)) = [] := by
      refine List.filter_eq_nil_iff.mpr ?_
      intro p hp
      simp only [Bool.not_eq_true]
      exact hpat p hp
    rw [h1, h2]
    norm_num

/-- Witness for C2 at the record name `Canal de Luz y Esperanza` (context
terms `luz` and `esperanza` occur, no primary signal fires). -/
theorem text_context_terms_never_self_trigger_witness :
    ((∀ k ∈ highPrecisionKeywords,
        isSubstr k.toList (pyLower "Canal de Luz y Esperanza") = false) ∧
      (∀ p ∈ religiousPatterns,
        patMatches p (pyLower "Canal de Luz y Esperanza") = false)) ∧
    ((analyzeText "Canal de Luz y Esperanza").confidence = 0 ∧
      (analyzeText "Canal de Luz y Esperanza").isReligious = false) := by
  have h1 : ∀ k ∈ highPrecisionKeywords,
      isSubstr k.toList (pyLower "Canal de Luz y Esperanza") = false := by decide
  have h2 : ∀ p ∈ religiousPatterns,
      patMatches p (pyLower "Canal de Luz y Esperanza") = false := by decide
  exact ⟨⟨h1, h2⟩,
    text_context_terms_never_self_trigger "Canal de Luz y Esperanza" h1 h2⟩

/-- C6: Any text containing a high-precision term (as a substring of its
lower-cased form, which is how the source matches) is scored with
confidence at least 0.8 and detected = true by the text analyzer. -/
theorem text_high_precision_detects (text : String)
    (h : ∃ k ∈ highPrecisionKeywords, isSubstr k.toList (pyLower text) = true) :
    (0.8 : ℚ) ≤ (analyzeText text).confidence ∧
    (analyzeText text).isReligious = true := by
  obtain ⟨k, hk, hsub⟩ := h
  have htext : ¬ text = "" := by
    intro he
    subst he
    rw [show pyLower "" = [] from rfl] at hsub
    unfold isSubstr at hsub
    have hk0 : k.toList = [] := by simpa using hsub
    have hke : k = "" := congrArg String.mk hk0
    subst hke
    exact absurd hk (by decide)
  unfold analyzeText
  rw [if_neg htext]
  dsimp only
  have hmem : k ∈ highPrecisionKeywords.filter fun k => isSubstr k.toList (pyLower text) :=
    List.mem_filter.mpr ⟨hk, hsub⟩
  have hlen : 1 ≤ ((highPrecisionKeywords.filter
      fun k => isSubstr k.toList (pyLower text)).length : ℚ) := by
    exact_mod_cast List.length_pos.mpr (List.ne_nil_of_mem hmem)
  have hpat : (0 : ℚ) ≤ ((religiousPatterns.filter
      fun p => patMatches p (pyLower text)).length : ℚ) := Nat.cast_nonneg _
  have hctx : (0 : ℚ) ≤ (((if (highPrecisionKeywords.filter
      fun k => isSubstr k.toList (pyLower text)).isEmpty &&
        (religiousPatterns.filter fun p => patMatches p (pyLower text)).isEmpty
      then ([] : List String)
      else contextDependentKeywords.filter
        fun k => isSubstr k.toList (pyLower text)).length : ℚ)) := Nat.cast_nonneg _
  have hconf : (0.8 : ℚ) ≤ min (((highPrecisionKeywords.filter
        fun k => isSubstr k.toList (pyLower text)).length : ℚ) * 0.8 +
      ((religiousPatterns.filter fun p => patMatches p (pyLower text)).length : ℚ) * 0.6 +
      (((if (highPrecisionKeywords.filter
          fun k => isSubstr k.toList (pyLower text)).isEmpty &&
            (religiousPatterns.filter fun p => patMatches p (pyLower text)).isEmpty
          then ([] : List String)
          else contextDependentKeywords.filter
            fun k => isSubstr k.toList (pyLower text)).length : ℚ)) * 0.3) 1 := by
    refine le_min ?_ (by norm_num)
    nlinarith [hlen, hpat, hctx]
  refine ⟨hconf, ?_⟩
  exact decide_eq_true (le_trans (by norm_num) hconf)

/-- Witness for C6 at `Iglesia Adventista TV` (contains the high-precision
terms `iglesia` and `adventista`). -/
theorem text_high_precision_detects_witness :
    (∃ k ∈ highPrecisionKeywords,
      isSubstr k.toList (pyLower "Iglesia Adventista TV") = true) ∧
    ((0.8 : ℚ) ≤ (analyzeText "Iglesia Adventista TV").confidence ∧
      (analyzeText "Iglesia Adventista TV").isReligious = true) := by
  have h : ∃ k ∈ highPrecisionKeywords,
      isSubstr k.toList (pyLower "Iglesia Adventista TV") = true := by decide
  exact ⟨h, text_high_precision_detects "Iglesia Adventista TV" h⟩

/-- C5: The classifier confidence is the maximum of the two analyzer
confidences, boosted by 1.2 and clamped to 1 exactly when both analyzers
detected; it always dominates each individual confidence and lies in
[0, 1]. -/
theorem classifier_corroboration_boost (c : ChannelData) :
    (analyzeChannel c).confidence =
      (if (analyzeText (combinedText c)).isReligious &&
          (analyzeDomain c.url).isReligious
        then min (max (analyzeText (combinedText c)).confidence
            (analyzeDomain c.url).confidence * 1.2) 1
        else max (analyzeText (combinedText c)).confidence
          (analyzeDomain c.url).confidence) ∧
    (analyzeText (combinedText c)).confidence ≤ (analyzeChannel c).confidence ∧
    (analyzeDomain c.url).confidence ≤ (analyzeChannel c).confidence ∧
    0 ≤ (analyzeChannel c).confidence ∧ (analyzeChannel c).confidence ≤ 1 := by
  have ht0 := analyzeText_confidence_nonneg (combinedText c)
  have ht1 := analyzeText_confidence_le_one (combinedText c)
  have hd0 := analyzeDomain_confidence_nonneg c.url
  have hd1 := analyzeDomain_confidence_le_one c.url
  have hmax0 : (0 : ℚ) ≤ max (analyzeText (combinedText c)).confidence
      (analyzeDomain c.url).confidence := le_trans ht0 (le_max_left _ _)
  have hmax1 : max (analyzeText (combinedText c)).confidence
      (analyzeDomain c.url).confidence ≤ 1 := max_le ht1 hd1
  have hboost : max (analyzeText (combinedText c)).confidence
        (analyzeDomain c.url).confidence ≤
      max (analyzeText (combinedText c)).confidence
        (analyzeDomain c.url).confidence * 1.2 :=
    le_mul_of_one_le_right hmax0 (by norm_num)
  unfold analyzeChannel
  dsimp only
  by_cases h : ((analyzeText (combinedText c)).isReligious &&
      (analyzeDomain c.url).isReligious) = true
  · rw [if_pos h]
    refine ⟨rfl, ?_, ?_, ?_, min_le_right _ _⟩
    · exact le_min (le_trans (le_max_left _ _) hboost) ht1
    · exact le_min (le_trans (le_max_right _ _) hboost) hd1
    · exact le_min (le_trans hmax0 hboost) (by norm_num)
  · rw [if_neg h]
    exact ⟨rfl, le_max_left _ _, le_max_right _ _, hmax0, hmax1⟩

/-- C3: Partition totality and exclusivity — one driver run routes every
row into exactly one of the two output partitions (the kept rows and the
flagged rows form a permutation of the input, so nothing is dropped or
duplicated), and the total counter is the kept count plus the flagged
count. -/
theorem driver_partition_total_exclusive (rows : List (List String)) (threshold : ℚ) :
    ((filterCsv rows threshold).remaining ++
      (filterCsv rows threshold).filtered.map Prod.fst).Perm rows ∧
    (filterCsv rows threshold).total =
      (filterCsv rows threshold).remaining.length +
        (filterCsv rows threshold).filtered.length := by
  induction rows with
  | nil => exact ⟨List.Perm.refl _, rfl⟩
  | cons row rest ih =>
    unfold filterCsv
    dsimp only
    by_cases h1 : 2 ≤ row.length
    · rw [if_pos h1]
      by_cases h2 : ((analyzeChannel (rowChannelData row)).isReligious &&
          decide (threshold ≤ (analyzeChannel (rowChannelData row)).confidence)) = true
      · rw [if_pos h2]
        dsimp only
        refine ⟨?_, ?_⟩
        · exact List.perm_middle.trans (ih.1.cons row)
        · simp only [List.length_cons]
          omega
      · rw [if_neg h2]
        dsimp only
        refine ⟨?_, ?_⟩
        · simpa using ih.1.cons row
        · simp only [List.length_cons]
          omega
    · rw [if_neg h1]
      dsimp only
      refine ⟨?_, ?_⟩
      · simpa using ih.1.cons row
      · simp only [List.length_cons]
        omega

/-- C4: Driver removal rule — the flagged partition is exactly the rows
with at least two fields whose verdict has `is_religious` set and
confidence at or above the threshold; every other row, in particular every
row with fewer than two fields, is kept. -/
theorem driver_removal_rule (rows : List (List String)) (threshold : ℚ) :
    (filterCsv rows threshold).filtered.map Prod.fst =
      rows.filter (fun row => shouldRemove row threshold) ∧
    (filterCsv rows threshold).remaining =
      rows.filter (fun row => !shouldRemove row threshold) ∧
    ∀ row ∈ rows, row.length < 2 → row ∈ (filterCsv rows threshold).remaining := by
  have main : (filterCsv rows threshold).filtered.map Prod.fst =
      rows.filter (fun row => shouldRemove row threshold) ∧
      (filterCsv rows threshold).remaining =
        rows.filter (fun row => !shouldRemove row threshold) := by
    induction rows with
    | nil => exact ⟨rfl, rfl⟩
    | cons row rest ih =>
      unfold filterCsv
      dsimp only
      by_cases h1 : 2 ≤ row.length
      · by_cases h2 : ((analyzeChannel (rowChannelData row)).isReligious &&
            decide (threshold ≤ (analyzeChannel (rowChannelData row)).confidence)) = true
        · have hs : shouldRemove row threshold = true := by
            unfold shouldRemove
            rw [decide_eq_true h1, h2]
            rfl
          rw [if_pos h1, if_pos h2]
          dsimp only
          rw [List.filter_cons, List.filter_cons, hs]
          simpa [ih.1] using ih.2
        · have hs : shouldRemove row threshold = false := by
            unfold shouldRemove
            rw [decide_eq_true h1]
            simpa using h2
          rw [if_pos h1, if_neg h2]
          dsimp only
          rw [List.filter_cons, List.filter_cons, hs]
          simpa [ih.2] using ih.1
      · have hs : shouldRemove row threshold = false := by
          unfold shouldRemove
          rw [decide_eq_false h1]
          rfl
        rw [if_neg h1]
        dsimp only
        rw [List.filter_cons, List.filter_cons, hs]
        simpa [ih.2] using ih.1
  refine ⟨main.1, main.2, ?_⟩
  intro row hrow hlen
  rw [main.2]
  refine List.mem_filter.mpr ⟨hrow, ?_⟩
  have : shouldRemove row threshold = false := by
    unfold shouldRemove
    rw [decide_eq_false (by omega)]
    rfl
  simp [this]

/-- C1: Evaluation of the text analyzer at the failing input `Telefe`: the
false-positive guard pattern matches and, contrary to its stated purpose,
adds 0.6 to the confidence like any other pattern (and thereby also
unlocks the context keyword `fe` for another 0.3), so the analyzer reports
confidence 0.9 and detected = true instead of the 0.0 / false that inert
guard patterns would give. -/
theorem guard_pattern_telefe_scores :
    analyzeText "Telefe" =
      ⟨true, 0.9, ["pattern_match", "context_keywords"]⟩ := by
  have h1 : (highPrecisionKeywords.filter
      fun k => isSubstr k.toList (pyLower "Telefe")) = [] := by decide
  have h2 : (religiousPatterns.filter
      fun p => patMatches p (pyLower "Telefe")) = [⟨["telefe"], .bound⟩] := by decide
  have h3 : (contextDependentKeywords.filter
      fun k => isSubstr k.toList (pyLower "Telefe")) = ["fe"] := by decide
  unfold analyzeText
  rw [if_neg (by decide : ¬ ("Telefe" : String) = "")]
  dsimp only
  rw [h1, h2]
  simp only [List.isEmpty_nil, List.isEmpty_cons, Bool.and_false, Bool.false_and,
    if_false, Bool.false_eq_true, reduceIte]
  rw [h3]
  have hc : min (((([] : List String).length : ℚ)) * 0.8 +
      ((([(⟨["telefe"], .bound⟩ : Pat)]).length : ℚ)) * 0.6 +
      ((["fe"].length : ℚ)) * 0.3) 1 = 0.9 := by
    simp only [List.length_nil, List.length_cons, List.length_singleton]
    norm_num
  rw [hc]
  rw [show decide ((0.5 : ℚ) ≤ 0.9) = true from decide_eq_true (by norm_num)]
  rfl

/-- C7 counterexample: on the input `[` the host parse fails
(`urlparse` raises on the mismatched IPv6 bracket), and the core extractor
returns the lower-cased scheme-completed input `http://[` — not the empty
string the claim requires. -/
theorem extract_domain_failure_counterexample :
    parseFails "[" = true ∧
    extractDomain "[" = "http://[".toList ∧
    extractDomain "[" ≠ [] := by decide

/-- C7 amended: on any non-empty input whose host parse fails, the core
extractor recovers by returning the lower-cased scheme-completed input
(never raising), while the Bitel collaborator extractor returns the empty
string; in the embedding both extractors are total functions. -/
theorem extract_domain_failure_amended (url : String)
    (h0 : ¬ url = "") (h : parseFails url = true) :
    extractDomain url = (withScheme url.toList).map pyLowerChar ∧
    bitelExtractDomain url = [] := by
  unfold parseFails at h
  unfold extractDomain bitelExtractDomain
  rw [if_neg h0, if_neg h0]
  dsimp only
  rw [if_pos h, if_pos h]
  exact ⟨rfl, rfl⟩

/-- Witness for the amended C7 at the failing input `[`. -/
theorem extract_domain_failure_amended_witness :
    (¬ ("[" : String) = "") ∧ parseFails "[" = true ∧
    (extractDomain "[" = (withScheme "[".toList).map pyLowerChar ∧
      bitelExtractDomain "[" = []) := by
  have h0 : ¬ ("[" : String) = "" := by decide
  have h : parseFails "[" = true := by decide
  exact ⟨h0, h, extract_domain_failure_amended "[" h0 h⟩

/-- C8 counterexample: the driver hands the FIRST column to the channel
record as its url, so on a concrete row with distinct first and third
columns the claimed mapping (url = third column) is false. -/
theorem driver_column_mapping_counterexample :
    (rowChannelData ["http://col1.example", "Channel Name", "http://col3.example"]).url
      = "http://col1.example" ∧
    ¬ (rowChannelData ["http://col1.example", "Channel Name", "http://col3.example"]).url
      = "http://col3.example" := by decide

/-- C8 amended: for every row with at least two fields the driver maps the
first column to the record url (the string the domain analyzer receives)
and the second column to the classification name, then category, group,
description; the id-name-url layout with the url third is the Pluto
collaborator filter's mapping, not the driver's. -/
theorem driver_column_mapping_amended (row : List String) (h : 2 ≤ row.length) :
    (rowChannelData row).url = row.getD 0 "" ∧
    (rowChannelData row).name = row.getD 1 "" ∧
    (rowChannelData row).category = row.getD 2 "" ∧
    plutoChannelUrl row = row.getD 2 "" :=
  ⟨rfl, rfl, rfl, rfl⟩

/-- Witness for the amended C8 at a concrete three-column row. -/
theorem driver_column_mapping_amended_witness :
    2 ≤ (["u", "n", "c"] : List String).length ∧
    ((rowChannelData ["u", "n", "c"]).url = (["u", "n", "c"] : List String).getD 0 "" ∧
      (rowChannelData ["u", "n", "c"]).name = (["u", "n", "c"] : List String).getD 1 "" ∧
      (rowChannelData ["u", "n", "c"]).category = (["u", "n", "c"] : List String).getD 2 "" ∧
      plutoChannelUrl ["u", "n", "c"] = (["u", "n", "c"] : List String).getD 2 "") :=
  ⟨by decide, driver_column_mapping_amended ["u", "n", "c"] (by decide)⟩

/-- C9 counterexample: the three lexicon term sets are not pairwise
disjoint — `santo` lies in the high-precision set and in the
context-dependent set (and in the domain set as well). -/
theorem lexicon_disjointness_counterexample :
    ¬ ((∀ x ∈ highPrecisionKeywords, ¬ x ∈ contextDependentKeywords) ∧
      (∀ x ∈ highPrecisionKeywords, ¬ x ∈ religiousDomains) ∧
      (∀ x ∈ contextDependentKeywords, ¬ x ∈ religiousDomains)) := by
  intro h
  exact h.1 "santo" (by decide) (by decide)

/-- C9 amended: every pair of the three lexicon term sets overlaps —
`santo` belongs to all three, and e.g. `iglesia` to both the
high-precision and the domain sets. -/
theorem lexicon_overlap_amended :
    ("santo" ∈ highPrecisionKeywords ∧ "santo" ∈ contextDependentKeywords ∧
      "santo" ∈ religiousDomains) ∧
    (∃ x, x ∈ highPrecisionKeywords ∧ x ∈ contextDependentKeywords) ∧
    (∃ x, x ∈ highPrecisionKeywords ∧ x ∈ religiousDomains) ∧
    (∃ x, x ∈ contextDependentKeywords ∧ x ∈ religiousDomains) :=
  ⟨⟨by decide, by decide, by decide⟩,
    ⟨"santo", by decide, by decide⟩,
    ⟨"iglesia", by decide, by decide⟩,
    ⟨"santo", by decide, by decide⟩⟩

/-- C10 counterexample: for a host containing two domain terms
(`church` and `gospel` in `churchgospel.com`), the domain analyzer appends
the tag `religious_domain` once per matching term, so the tag occurs twice
in one result — the reasons collection is not duplicate-free. -/
theorem reasons_multiplicity_counterexample :
    (analyzeDomain "http://churchgospel.com").reasons =
      ["religious_domain", "religious_domain"] ∧
    ¬ ((analyzeDomain "http://churchgospel.com").reasons.count "religious_domain" ≤ 1) := by
  constructor
  · decide
  · decide

/-- C10 amended: the text analyzer emits each reason tag at most once, and
the domain analyzer emits `religious_subdomain` at most once; only the
`religious_domain` tag can repeat — once per domain term matching the
host. -/
theorem reasons_multiplicity_amended (text url tag : String) :
    (analyzeText text).reasons.count tag ≤ 1 ∧
    (analyzeDomain url).reasons.count "religious_subdomain" ≤ 1 := by
  constructor
  · have hnd : (analyzeText text).reasons.Nodup := by
      unfold analyzeText
      split
      · exact List.nodup_nil
      · dsimp only
        split_ifs <;> decide
    exact List.nodup_iff_count_le_one.mp hnd tag
  · unfold analyzeDomain
    dsimp only
    split
    · simp
    · dsimp only
      rw [List.count_append]
      have h1 : ((religiousDomains.filter
          fun t => isSubstr t.toList (extractDomain url)).map
            fun _ => "religious_domain").count "religious_subdomain" = 0 := by
        refine List.count_eq_zero.mpr ?_
        intro hmem
        obtain ⟨x, _, hx⟩ := List.mem_map.mp hmem
        exact absurd hx (by decide)
      rw [h1]
      split_ifs <;> decide
